import Mathlib

/-!
Verification development for the homebridge-ttlock-homekey plugin.

The repository contains two divergent cloud-client implementations:
the primary one in `src/api/ttlockApi.ts` and a parallel one (an earlier
variant of the same file) whose `makeAuthenticatedRequest` funnels every
call through a FIFO request queue.  Both are modelled here, together with
the access-code TLV handler of `homekitDevice.ts` and the periodic
discovery handling of the platform file.
-/

namespace TTLock

/-! ## Retry-loop models

`makeAuthenticatedRequest` in both clients runs
`for (let attempt = 0; attempt <= maxRetries; attempt++)` with
`maxRetries = 3`.  Each loop iteration issues exactly one outbound HTTP
call; the response of call number `attempt` is given by `script attempt`.
`continue` statements pass through the loop's update expression, so they
increment `attempt`.
-/

/-- Outcome classification of one outbound HTTP call, as the axios layer
presents it to the catch block: a 2xx response with the service's
`errcode`/`errmsg` envelope, an axios error that carries a response
(status and body `errmsg`), or any other failure. -/
inductive ApiResponse where
  | ok (errcode : Nat) (errmsg : String)
  | httpError (status : Nat) (errmsg : String)
  | networkError
  deriving DecidableEq, Repr

/-- Terminal result of `makeAuthenticatedRequest`. -/
inductive ReqOutcome where
  | success
  | requestFailed
  | otherError
  | maxRetries
  deriving DecidableEq, Repr

/-- Observable trace of one `makeAuthenticatedRequest` invocation:
final outcome, the backoff sleeps performed (ms, in order), how many
times `refreshTokenIfNeeded` was invoked, how many iterations observed
the transient (retryable) error, and how many outbound calls were made. -/
structure ReqTrace where
  outcome : ReqOutcome
  delays : List Nat
  refreshCalls : Nat
  busyAttempts : Nat
  outboundCalls : Nat
  deriving DecidableEq, Repr

/-- `maxRetries` from both clients. -/
def maxRetries : Nat := 3

/-- The transient error message tested by the parallel client. -/
def busyMsg : String := "The gateway is busy. Please try again later."

/-- The retry loop of the primary client (`src/api/ttlockApi.ts`,
`makeAuthenticatedRequest`): a 2xx response with non-zero `errcode`
throws `RequestFailed`, which the catch block retries with delay
`2^attempt * 1000` ms while `attempt < maxRetries` and finally rethrows;
an axios error with status 401 refreshes the token and continues
(incrementing `attempt`); any other axios error with a response throws
`RequestFailed` at once; other errors are rethrown; falling out of the
loop throws "Max retries reached".  `fuel` is the number of remaining
loop iterations (`4 - attempt`). -/
def goPrimary (script : Nat → ApiResponse) : Nat → Nat → ReqTrace
  | 0, _ => ⟨.maxRetries, [], 0, 0, 0⟩
  | fuel + 1, attempt =>
    match script attempt with
    | .ok errcode _ =>
      if errcode ≠ 0 then
        if attempt < maxRetries then
          let t := goPrimary script fuel (attempt + 1)
          ⟨t.outcome, (2 ^ attempt * 1000) :: t.delays, t.refreshCalls,
            t.busyAttempts + 1, t.outboundCalls + 1⟩
        else ⟨.requestFailed, [], 0, 1, 1⟩
      else ⟨.success, [], 0, 0, 1⟩
    | .httpError status _ =>
      if status = 401 then
        let t := goPrimary script fuel (attempt + 1)
        ⟨t.outcome, t.delays, t.refreshCalls + 1, t.busyAttempts, t.outboundCalls + 1⟩
      else ⟨.requestFailed, [], 0, 0, 1⟩
    | .networkError => ⟨.otherError, [], 0, 0, 1⟩

/-- Run the primary client's retry loop from `attempt = 0`. -/
def runPrimary (script : Nat → ApiResponse) : ReqTrace := goPrimary script 4 0

/-- The retry loop of the parallel client (`part_003`,
`makeAuthenticatedRequest`): a 2xx response with non-zero `errcode`
throws `RequestFailed`, which is NOT an axios error, so the catch block
rejects it immediately (no retry); an axios error with status 401
refreshes and continues; an axios error whose body `errmsg` equals the
busy message is retried with delay `2^attempt * 1000` ms while
`attempt < maxRetries`, otherwise rejected as `RequestFailed`; any other
axios error with a response is rejected as `RequestFailed`; other errors
are rejected as-is; falling out of the loop rejects "Max retries
reached". -/
def goPart3 (script : Nat → ApiResponse) : Nat → Nat → ReqTrace
  | 0, _ => ⟨.maxRetries, [], 0, 0, 0⟩
  | fuel + 1, attempt =>
    match script attempt with
    | .ok errcode _ =>
      if errcode ≠ 0 then ⟨.requestFailed, [], 0, 0, 1⟩
      else ⟨.success, [], 0, 0, 1⟩
    | .httpError status errmsg =>
      if status = 401 then
        let t := goPart3 script fuel (attempt + 1)
        ⟨t.outcome, t.delays, t.refreshCalls + 1, t.busyAttempts, t.outboundCalls + 1⟩
      else if errmsg = busyMsg then
        if attempt < maxRetries then
          let t := goPart3 script fuel (attempt + 1)
          ⟨t.outcome, (2 ^ attempt * 1000) :: t.delays, t.refreshCalls,
            t.busyAttempts + 1, t.outboundCalls + 1⟩
        else ⟨.requestFailed, [], 0, 1, 1⟩
      else ⟨.requestFailed, [], 0, 0, 1⟩
    | .networkError => ⟨.otherError, [], 0, 0, 1⟩

/-- Run the parallel client's retry loop from `attempt = 0`. -/
def runPart3 (script : Nat → ApiResponse) : ReqTrace := goPart3 script 4 0

/-- A script whose first `k` responses are HTTP 401 and whose remaining
responses carry the transient application error, against the primary
client's classification. -/
def mix401Primary (k : Nat) : Nat → ApiResponse :=
  fun i => if i < k then .httpError 401 "" else .ok 1 busyMsg

/-- A script whose first `k` responses are HTTP 401 and whose remaining
responses are HTTP errors with the busy message, against the parallel
client's classification. -/
def mix401Part3 (k : Nat) : Nat → ApiResponse :=
  fun i => if i < k then .httpError 401 "" else .httpError 500 busyMsg

/-! ## Request-queue model (parallel client)

`enqueueRequest` pushes the request onto `requestQueue` and invokes
`processQueue`.  `processQueue` returns at once when `isProcessingQueue`
is set; otherwise it sets the flag and, while the queue is non-empty,
shifts the head and `await`s it, finally clearing the flag.  JavaScript
interleaves cooperating tasks only at `await` boundaries; the model below
over-approximates by also allowing interleavings between the worker's
internal steps, so an invariant proved over it holds a fortiori. -/

/-- Status of the single `processQueue` worker: not running
(`isProcessingQueue === false`), running between awaits, or awaiting the
outbound call of request `r`. -/
inductive Worker where
  | idle
  | looping
  | awaiting (r : Nat)
  deriving DecidableEq, Repr

/-- State of the parallel client's request queue.  `inFlight` records the
outbound calls started and not yet completed; `enqueued`/`started` are
histories of request identifiers for the FIFO property. -/
structure QState where
  queue : List Nat
  worker : Worker
  inFlight : List Nat
  enqueued : List Nat
  started : List Nat
  deriving DecidableEq, Repr

/-- Interleaving events of the queued client: a caller enqueues a request
(running `processQueue`, which starts the worker if it was idle); the
worker shifts the queue head and issues its outbound call; an outbound
call completes; the worker finds the queue empty and clears
`isProcessingQueue`. -/
inductive QEvent where
  | enqueue (r : Nat)
  | next
  | complete
  | stop
  deriving DecidableEq, Repr

/-- One step of the queued client (`none` when the event is not enabled). -/
def qStep (s : QState) : QEvent → Option QState
  | .enqueue r =>
    some { s with
      queue := s.queue ++ [r]
      enqueued := s.enqueued ++ [r]
      worker := match s.worker with | .idle => .looping | w => w }
  | .next =>
    match s.worker, s.queue with
    | .looping, r :: rest =>
      some { s with
        queue := rest
        worker := .awaiting r
        inFlight := s.inFlight ++ [r]
        started := s.started ++ [r] }
    | _, _ => none
  | .complete =>
    match s.worker with
    | .awaiting r => some { s with worker := .looping, inFlight := s.inFlight.erase r }
    | _ => none
  | .stop =>
    match s.worker, s.queue with
    | .looping, [] => some { s with worker := .idle }
    | _, _ => none

/-- Execute a sequence of queue events; fails if any event is disabled. -/
def qRun : QState → List QEvent → Option QState
  | s, [] => some s
  | s, e :: evs =>
    match qStep s e with
    | some s2 => qRun s2 evs
    | none => none

/-- The queued client's initial state. -/
def qInit : QState := ⟨[], .idle, [], [], []⟩

/-- A state of the queued client reachable by some interleaving. -/
def QReachable (s : QState) : Prop := ∃ evs, qRun qInit evs = some s

/-- Inductive invariant of the queued client: the worker awaits at most
one call, `inFlight` holds exactly that call, and the enqueue history
splits into the started history followed by the pending queue (FIFO). -/
def QInv (s : QState) : Prop :=
  (match s.worker with
   | .awaiting r => s.inFlight = [r]
   | _ => s.inFlight = []) ∧
  s.enqueued = s.started ++ s.queue

/-! ## Direct-call model (primary client)

The primary client declares `requestQueue` and `isProcessingQueue` but
never uses them: `makeAuthenticatedRequest` awaits
`this.apiClient.request` directly.  Concurrent invocations therefore each
own an outbound call with no serialization between them. -/

/-- Phase of one caller of the primary client's
`makeAuthenticatedRequest`. -/
inductive Phase where
  | pending
  | calling
  | done
  deriving DecidableEq, Repr

/-- State of several concurrent direct callers; `inFlight` lists the
indices of callers whose outbound call has started and not completed. -/
structure DState where
  phases : List Phase
  inFlight : List Nat
  deriving DecidableEq, Repr

/-- Events of the direct-call model: caller `i` issues its outbound call;
caller `i`'s outbound call completes. -/
inductive DEvent where
  | start (i : Nat)
  | finish (i : Nat)
  deriving DecidableEq, Repr

/-- One step of the direct-call model. -/
def dStep (s : DState) : DEvent → Option DState
  | .start i =>
    match s.phases.get? i with
    | some .pending => some ⟨s.phases.set i .calling, s.inFlight ++ [i]⟩
    | _ => none
  | .finish i =>
    match s.phases.get? i with
    | some .calling => some ⟨s.phases.set i .done, s.inFlight.erase i⟩
    | _ => none

/-- Execute a sequence of direct-call events. -/
def dRun : DState → List DEvent → Option DState
  | s, [] => some s
  | s, e :: evs =>
    match dStep s e with
    | some s2 => dRun s2 evs
    | none => none

/-- Initial state with `n` concurrent callers. -/
def dInit (n : Nat) : DState := ⟨List.replicate n .pending, []⟩

/-! ## Token-refresh mutex model

`refreshTokenIfNeeded` (identical structure in both clients) acquires
`tokenMutex`, posts `oauth2/token` with `grant_type = refresh_token`,
stores the returned pair, and releases the mutex.  There is no check
inside the critical section whether another caller already refreshed. -/

/-- Phase of one caller of `refreshTokenIfNeeded`: waiting for the mutex,
holding it while the refresh POST is outstanding, or finished (recording
the token version its own refresh installed). -/
inductive RPhase where
  | pending
  | refreshing
  | done (observedVersion : Nat)
  deriving DecidableEq, Repr

/-- Shared state of concurrent `refreshTokenIfNeeded` callers. -/
structure RState where
  phases : List RPhase
  mutexHeld : Option Nat
  refreshCalls : Nat
  tokenVersion : Nat
  deriving DecidableEq, Repr

/-- Events: caller `i` acquires the mutex; caller `i`'s refresh POST
completes, installing a fresh token pair and releasing the mutex. -/
inductive REvent where
  | acquire (i : Nat)
  | refreshDone (i : Nat)
  deriving DecidableEq, Repr

/-- One step of the refresh-mutex model. -/
def rStep (s : RState) : REvent → Option RState
  | .acquire i =>
    match s.mutexHeld, s.phases.get? i with
    | none, some .pending =>
      some { s with mutexHeld := some i, phases := s.phases.set i .refreshing }
    | _, _ => none
  | .refreshDone i =>
    match s.phases.get? i with
    | some .refreshing =>
      if s.mutexHeld = some i then
        some ⟨s.phases.set i (.done (s.tokenVersion + 1)), none,
          s.refreshCalls + 1, s.tokenVersion + 1⟩
      else none
    | _ => none

/-- Execute a sequence of refresh events. -/
def rRun : RState → List REvent → Option RState
  | s, [] => some s
  | s, e :: evs =>
    match rStep s e with
    | some s2 => rRun s2 evs
    | none => none

/-- Initial state with `n` concurrent refresh callers and no refresh yet
performed. -/
def rInit (n : Nat) : RState := ⟨List.replicate n .pending, none, 0, 0⟩

/-- A refresh-model state reachable from `n` concurrent callers. -/
def RReachable (n : Nat) (s : RState) : Prop := ∃ evs, rRun (rInit n) evs = some s

/-- Whether a caller phase is `done`. -/
def isDoneB : RPhase → Bool
  | .done _ => true
  | _ => false

/-- Number of callers that have completed their own refresh. -/
def countDone (l : List RPhase) : Nat := (l.filter isDoneB).length

/-- Inductive invariant of the refresh-mutex model: any caller inside the
critical section holds the mutex, the number of performed refresh POSTs
equals the number of finished callers, and the caller population is
stable. -/
def RInv (n : Nat) (s : RState) : Prop :=
  (∀ i, s.phases.get? i = some .refreshing → s.mutexHeld = some i) ∧
  s.refreshCalls = countDone s.phases ∧
  s.phases.length = n

/-! ## Lock-state mapping -/

/-- `getLockState` of the primary client maps the server's reported state
through `data.state === 0 ? 1 : data.state === 1 ? 0 : data.state`. -/
def getLockStatePrimary (state : Nat) : Nat :=
  if state = 0 then 1 else if state = 1 then 0 else state

/-- `getLockState` of the parallel client returns `data.state`
unchanged. -/
def getLockStatePart3 (state : Nat) : Nat := state

/-! ## Access-code TLV handler (`homekitDevice.ts`,
`handleAccessCodeControlPointOnSet`)

Byte buffers are modelled as `List Nat`; the external `ber-tlv` library's
`TlvFactory.serialize(TlvFactory.primitiveTlv(tag, hexValue))` is
modelled for the short-form lengths used here as `tag :: length ::
value`.  Hex strings handed to `primitiveTlv` are decoded two characters
per byte, matching the library's interpretation. -/

/-- A decoded TLV element (tag byte and raw value bytes). -/
structure RawTlv where
  tag : Nat
  value : List Nat
  deriving DecidableEq, Repr

/-- Passcode record as produced by `getPasscodes`: server identifier
(`keyboardPwdId.toString()`), slot index (position in the fetched list),
and the code value. -/
structure Passcode where
  id : String
  index : Nat
  passcode : String
  deriving DecidableEq, Repr

/-- Numeric value of one hex digit (0 for non-hex characters). -/
def hexDigitVal (c : Char) : Nat :=
  if '0' ≤ c ∧ c ≤ '9' then c.toNat - 48
  else if 'a' ≤ c ∧ c ≤ 'f' then c.toNat - 87
  else if 'A' ≤ c ∧ c ≤ 'F' then c.toNat - 55
  else 0

/-- Decode a hex character list two characters per byte (trailing odd
character dropped, as we never produce one). -/
def hexDecodeList : List Char → List Nat
  | c1 :: c2 :: rest => (hexDigitVal c1 * 16 + hexDigitVal c2) :: hexDecodeList rest
  | _ => []

/-- Decode a hex string to bytes. -/
def hexDecode (s : String) : List Nat := hexDecodeList s.data

/-- `String(x).padStart(2, '0')`. -/
def padStart2 (s : String) : String :=
  if s.length < 2 then String.mk (List.replicate (2 - s.length) '0') ++ s else s

/-- The identifier value bytes for a slot index:
`String(pc.index).padStart(2, '0')` handed to `primitiveTlv` as hex. -/
def indexFieldBytes (i : Nat) : List Nat := hexDecode (padStart2 (toString i))

/-- `Buffer.from(s).toString('hex')` handed to `primitiveTlv`: the UTF-8
bytes of `s` (codes here are ASCII digits). -/
def strBytes (s : String) : List Nat := s.data.map Char.toNat

/-- `Buffer.toString()` on value bytes: decode bytes back to a string. -/
def bytesToStr (l : List Nat) : String := String.mk (l.map Char.ofNat)

/-- Big-endian numeric value of value bytes (the hex string of the bytes
read as one number). -/
def bytesToNat (l : List Nat) : Nat := l.foldl (fun a b => a * 256 + b) 0

/-- `parseInt(valueHex, 16)` on the hex string of the value bytes: the
big-endian numeric value for a non-empty value, and `none` for an empty
value — `parseInt('', 16)` is `NaN`, under which any subsequent array
index lookup yields `undefined`. -/
def parseIntHex : List Nat → Option Nat
  | [] => none
  | l => some (bytesToNat l)

/-- `TlvFactory.serialize(TlvFactory.primitiveTlv(tag, value))` for
short-form lengths (all values built by the handler are shorter than 128
bytes). -/
def serializePrimitive (tag : Nat) (v : List Nat) : List Nat := tag :: v.length :: v

/-- The four serialized sub-record fields the handler keeps in the
mutable variables `identifier`, `accessCode`, `flags`, `status`. -/
structure SubFields where
  identifier : List Nat
  accessCode : List Nat
  flags : List Nat
  status : List Nat
  deriving DecidableEq, Repr

/-- The initial values of the four mutable variables: all `''`. -/
def emptySubFields : SubFields := ⟨[], [], [], []⟩

/-- The field values written for a resolved passcode. -/
def recordFor (pc : Passcode) : SubFields :=
  ⟨serializePrimitive 1 (indexFieldBytes pc.index),
    serializePrimitive 2 (strBytes pc.passcode),
    serializePrimitive 3 [0],
    serializePrimitive 4 [0]⟩

/-- Serialization of one `03` sub-record from the current field values. -/
def subFieldsBytes (f : SubFields) : List Nat :=
  serializePrimitive 3 (f.identifier ++ f.accessCode ++ f.flags ++ f.status)

/-- One iteration of the Read (opcode 2) loop body: a request with a
non-empty parsed `readReq` computes `parseInt(hex, 16)` of its first
element's value — `NaN` when that value is empty — and overwrites the
four variables only when `passCodes[index]` exists; in every other case
(empty `readReq`, `NaN` index, or out-of-range index) the variables keep
their previous values. -/
def resolveRead (pcs : List Passcode) (f : SubFields) : Option (List Nat) → SubFields
  | none => f
  | some v =>
    match parseIntHex v with
    | none => f
    | some idx =>
      match pcs.get? idx with
      | some pc => recordFor pc
      | none => f

/-- The sequence of sub-record field values emitted by the Read loop, one
per requested element, threading the mutable variables. -/
def case2Records (pcs : List Passcode) : SubFields → List (Option (List Nat)) → List SubFields
  | _, [] => []
  | f, r :: rest =>
    let f2 := resolveRead pcs f r
    f2 :: case2Records pcs f2 rest

/-- Concatenate serialized sub-records with the `0000` separator between
all but the last. -/
def chunksWithSep : List SubFields → List Nat
  | [] => []
  | [f] => subFieldsBytes f
  | f :: rest => subFieldsBytes f ++ [0, 0] ++ chunksWithSep rest

/-- The Read (opcode 2) handler: response starts with `010102`; the loop
over the requested elements runs only when the snapshot is non-empty. -/
def handleCase2 (pcs : List Passcode) (reqs : List (Option (List Nat))) : List Nat :=
  [1, 1, 2] ++ (if pcs.length > 0 then chunksWithSep (case2Records pcs emptySubFields reqs) else [])

/-- The List (opcode 1) handler: one sub-record per snapshot entry in
order, separated by `0000` between all but the last, after `010101`. -/
def handleCase1 (pcs : List Passcode) : List Nat :=
  [1, 1, 1] ++ chunksWithSep (pcs.map recordFor)

/-- Cloud-side passcode store: `(keyboardPwdId, keyboardPwd)` pairs plus
the next identifier the service will assign. -/
structure Cloud where
  codes : List (Nat × String)
  nextId : Nat
  deriving DecidableEq, Repr

/-- `keyboardPwd/add`: stores the code and returns the new
`keyboardPwdId`. -/
def cloudAddPasscode (c : Cloud) (code : String) : Cloud × Nat :=
  (⟨c.codes ++ [(c.nextId, code)], c.nextId + 1⟩, c.nextId)

/-- `keyboardPwd/delete` by identifier. -/
def cloudDeletePasscode (c : Cloud) (pcId : String) : Cloud :=
  ⟨c.codes.filter (fun e => toString e.fst ≠ pcId), c.nextId⟩

/-- `getPasscodes`: list the store, recomputing each slot index as the
zero-based position in the fetched list. -/
def cloudGetPasscodes (c : Cloud) : List Passcode :=
  (List.range c.codes.length).zip c.codes |>.map
    (fun e => ⟨toString e.snd.fst, e.fst, e.snd.snd⟩)

/-- Gateway calls issued by the handler, in order. -/
inductive GatewayCall where
  | add (code : String)
  | change (pcId : String) (code : String)
  | deleteCall (pcId : String)
  | fetch
  deriving DecidableEq, Repr

/-- Whether a gateway call is a `changePasscode` call. -/
def isChangeB : GatewayCall → Bool
  | .change _ _ => true
  | _ => false

/-- The Add (opcode 3) loop: each sub-command with a non-empty parsed
TLV list takes the FIRST element's value as the new passcode (no tag is
inspected), calls `addPasscode`, refetches the snapshot, and locates the
new record by the returned identifier to build its response sub-record;
empty sub-commands are skipped.  Returns the final cloud state, the
gateway calls issued, and the response bytes after the `010103` echo. -/
def case3Go : Cloud → List (List RawTlv) → Cloud × List GatewayCall × List Nat
  | cloud, [] => (cloud, [], [])
  | cloud, [] :: rest => case3Go cloud rest
  | cloud, (t :: _) :: rest =>
    let code := bytesToStr t.value
    let added := cloudAddPasscode cloud code
    let pcs := cloudGetPasscodes added.fst
    let chunk :=
      match pcs.find? (fun p => p.id = toString added.snd) with
      | some pc => subFieldsBytes (recordFor pc) ++ (if rest.isEmpty then [] else [0, 0])
      | none => []
    let tail := case3Go added.fst rest
    (tail.fst, .add code :: .fetch :: tail.snd.fst, chunk ++ tail.snd.snd)

/-- The Add (opcode 3) handler. -/
def handleCase3 (cloud : Cloud) (subs : List (List RawTlv)) :
    Cloud × List GatewayCall × List Nat :=
  let r := case3Go cloud subs
  (r.fst, r.snd.fst, [1, 1, 3] ++ r.snd.snd)

/-- The Delete (opcode 5) handler: parses only `decTlv[1]`, resolves the
slot index positionally with `parseInt(hex, 16)` (`NaN` for an empty
value, under which the slot lookup fails), and when the slot exists
deletes by the stable identifier, refetches, and answers with the
defunct record's fields. -/
def handleCase5 (cloud : Cloud) (passCodes : List Passcode) (deleteReq : List RawTlv) :
    Cloud × List Passcode × List GatewayCall × List Nat :=
  match deleteReq with
  | [] => (cloud, passCodes, [], [1, 1, 5])
  | t :: _ =>
    match (parseIntHex t.value).bind (fun idx => passCodes.get? idx) with
    | none => (cloud, passCodes, [], [1, 1, 5])
    | some pc =>
      let cloud1 := cloudDeletePasscode cloud pc.id
      (cloud1, cloudGetPasscodes cloud1, [.deleteCall pc.id, .fetch],
        [1, 1, 5] ++ subFieldsBytes (recordFor pc))

/-- The decoded command dispatched on `Number(decTlv[0].value hex)`.
`ber-tlv` parsing (outer and the per-element inner parses) is external;
its successful output is modelled here, and any parse throw is the
`Except.error` case of the handler input. -/
inductive ParsedCmd where
  | list
  | read (reqs : List (Option (List Nat)))
  | addCmd (subs : List (List RawTlv))
  | del (req : List RawTlv)
  | other
  deriving DecidableEq, Repr

/-- Device-side flags touched by the handler: `lock.offline`, whether the
polling interval is active, `lockBusy`, and `isUpdating`. -/
structure HandlerState where
  lockOffline : Bool
  polling : Bool
  lockBusy : Bool
  isUpdating : Bool
  deriving DecidableEq, Repr

/-- Result of one control-point write: response bytes (before base64),
cloud state, device passcode snapshot, and flags. -/
structure ACCPResult where
  response : List Nat
  cloud : Cloud
  passCodes : List Passcode
  state : HandlerState
  deriving DecidableEq, Repr

/-- `handleAccessCodeControlPointOnSet`: returns `''` at once when the
device is offline or the platform is shutting down; otherwise sets
`isUpdating` and `lockBusy`, decodes and dispatches the command, and in
the shared catch block logs, sets `lock.offline = true`, calls
`stopPolling()`, and returns `''`; the finally block always clears
`lockBusy` and `isUpdating`. -/
def handleACCP (shuttingDown : Bool) (cloud : Cloud) (passCodes : List Passcode)
    (pr : Except Unit ParsedCmd) (st : HandlerState) : ACCPResult :=
  if st.lockOffline || shuttingDown then ⟨[], cloud, passCodes, st⟩
  else
    let st1 : HandlerState := { st with isUpdating := true, lockBusy := true }
    match pr with
    | .error _ =>
      ⟨[], cloud, passCodes,
        { st1 with lockOffline := true, polling := false, lockBusy := false, isUpdating := false }⟩
    | .ok cmd =>
      let fin : HandlerState := { st1 with lockBusy := false, isUpdating := false }
      match cmd with
      | .list => ⟨handleCase1 passCodes, cloud, passCodes, fin⟩
      | .read reqs => ⟨handleCase2 passCodes reqs, cloud, passCodes, fin⟩
      | .addCmd subs =>
        let r := handleCase3 cloud subs
        ⟨r.snd.snd, r.fst,
          if r.snd.fst.isEmpty then passCodes else cloudGetPasscodes r.fst, fin⟩
      | .del req =>
        let r := handleCase5 cloud passCodes req
        ⟨r.snd.snd.snd, r.fst, r.snd.fst, fin⟩
      | .other => ⟨[], cloud, passCodes, fin⟩

/-! ## Periodic discovery and offline handling (platform)

`periodicDeviceDiscovery` iterates `configuredAccessories`; for each
accessory whose device is absent from the sweep it calls
`updateAccessoryStatus` (setting `context.offline = true`) and then
`handleOfflineAccessory`.  `handleOfflineAccessory` looks up
`homekitDevicesById.get(platformAccessory.context.deviceId)` — the
context field written everywhere else in the platform is `context.id`;
`context.deviceId` is never assigned anywhere in the repository, so it is
modelled as an `Option String` that stays `none`. -/

/-- `TTLockAccessoryContext` plus the `deviceId` field that
`handleOfflineAccessory` reads. -/
structure AccessoryCtx where
  id : Option String
  lastSeen : Nat
  offline : Bool
  deviceId : Option String
  deriving DecidableEq, Repr

/-- In-memory `TTLockHomeKitDevice` as far as the discovery sweep can
observe it: its lock's offline flag, whether its polling interval is
active, and its lock's last-seen time. -/
structure HKDev where
  lockOffline : Bool
  polling : Bool
  lockLastSeen : Nat
  deriving DecidableEq, Repr

/-- Association-list lookup keyed by string. -/
def mapGet {α : Type} (k : String) (l : List (String × α)) : Option α :=
  (l.find? (fun e => e.fst = k)).map (fun e => e.snd)

/-- Association-list in-place update (mutation of the stored object). -/
def mapSet {α : Type} (k : String) (v : α) (l : List (String × α)) : List (String × α) :=
  l.map (fun e => if e.fst = k then (k, v) else e)

/-- Association-list removal (`Map.delete`). -/
def mapDelete {α : Type} (k : String) (l : List (String × α)) : List (String × α) :=
  l.filter (fun e => e.fst ≠ k)

/-- Platform state relevant to offline handling: the configured-accessory
map (keyed by UUID) and `homekitDevicesById`. -/
structure PlatState where
  configured : List (String × AccessoryCtx)
  devices : List (String × HKDev)
  deriving DecidableEq, Repr

/-- The no-device branch of `handleOfflineAccessory`: when
`context.offline === true`, an accessory absent for strictly less than
the offline interval is re-marked offline, and one absent for strictly
longer is unregistered and deleted from `configuredAccessories`. -/
def handleOfflineNoDevice (st : PlatState) (uuid : String) (ctx : AccessoryCtx)
    (now interval : Nat) : PlatState :=
  if ctx.offline then
    let tsls := now - ctx.lastSeen
    if tsls < interval then
      { st with configured := mapSet uuid { ctx with offline := true } st.configured }
    else if tsls > interval then
      { st with configured := mapDelete uuid st.configured }
    else st
  else st

/-- `handleOfflineAccessory`: looks up the HomeKit device under
`context.deviceId`; when found, marks `lock.offline` within the interval
or unregisters and deletes the accessory outside it (never touching the
device's polling timer or `homekitDevicesById`); when not found, falls to
the context-based branch. -/
def handleOfflineAccessory (st : PlatState) (uuid : String) (ctx : AccessoryCtx)
    (now interval : Nat) : PlatState :=
  match ctx.deviceId with
  | some k =>
    match mapGet k st.devices with
    | some dev =>
      let tsls := now - dev.lockLastSeen
      if tsls < interval then
        { st with devices := mapSet k { dev with lockOffline := true } st.devices }
      else if tsls > interval then
        { st with configured := mapDelete uuid st.configured }
      else st
    | none => handleOfflineNoDevice st uuid ctx now interval
  | none => handleOfflineNoDevice st uuid ctx now interval

/-- The periodic-discovery handling for one accessory whose device is
absent from the sweep: `updateAccessoryStatus` (sets
`context.offline = true` on the accessory object held by the map) then
`handleOfflineAccessory`. -/
def sweepAbsent (st : PlatState) (uuid : String) (now interval : Nat) : PlatState :=
  match mapGet uuid st.configured with
  | none => st
  | some ctx =>
    let ctx1 := { ctx with offline := true }
    let st1 := { st with configured := mapSet uuid ctx1 st.configured }
    handleOfflineAccessory st1 uuid ctx1 now interval

/-- One tick of a device's polling interval (`startPolling` callback):
when the lock is offline or the platform is shutting down, the timer
stops itself; otherwise `updateState` runs (the device polls the
cloud). -/
def pollTick (shuttingDown : Bool) (dev : HKDev) : HKDev × Bool :=
  if dev.lockOffline || shuttingDown then ({ dev with polling := false }, false)
  else (dev, true)


/-- The gateway-call sequence the Add (opcode 3) handler actually
produces: an `addPasscode` with the first sub-TLV's value followed by a
snapshot refetch, per non-empty sub-command. -/
def addOnlyCalls : List (List RawTlv) → List GatewayCall
  | [] => []
  | [] :: rest => addOnlyCalls rest
  | (t :: _) :: rest => .add (bytesToStr t.value) :: .fetch :: addOnlyCalls rest

/-- A Read request element that does not resolve to a snapshot entry:
its parsed `readReq` is empty, or its identifier value is empty (so
`parseInt('', 16)` is `NaN`), or the slot index is out of range. -/
def unresolvedAt (pcs : List Passcode) (r : Option (List Nat)) : Prop :=
  r = none ∨ ∃ v, r = some v ∧
    (parseIntHex v = none ∨ ∃ idx, parseIntHex v = some idx ∧ pcs.get? idx = none)

/-- Shape of the `list` field of a successfully decoded listing response:
an array of items (each item's lockId modelled as a `Nat`) or a missing
or non-array field. -/
inductive ListField where
  | arrayOf (items : List Nat)
  | notArray
  deriving DecidableEq, Repr

/-- Result of a listing call such as `getLocks`. -/
inductive ListResult where
  | ok (ids : List String)
  | invalidFormat
  | failed (o : ReqOutcome)
  deriving DecidableEq, Repr

/-- `getLocks` of the primary client: await `makeAuthenticatedRequest`
(its rejection propagates unchanged); on success check
`!response.list || !Array.isArray(response.list)` and throw the plain
`Invalid response format` error — with no further outbound call or retry
— otherwise map each item's lockId to a string.  The `list` field of the
successfully decoded body is the `body` argument. -/
def getLocksPrimary (script : Nat → ApiResponse) (body : ListField) :
    ListResult × ReqTrace :=
  let t := runPrimary script
  match t.outcome with
  | .success =>
    match body with
    | .arrayOf items => (.ok (items.map toString), t)
    | .notArray => (.invalidFormat, t)
  | o => (.failed o, t)

/-- `getLocks` of the parallel client: identical array-shape validation
after its own retry loop. -/
def getLocksPart3 (script : Nat → ApiResponse) (body : ListField) :
    ListResult × ReqTrace :=
  let t := runPart3 script
  match t.outcome with
  | .success =>
    match body with
    | .arrayOf items => (.ok (items.map toString), t)
    | .notArray => (.invalidFormat, t)
  | o => (.failed o, t)

/-! ## Helper lemmas -/

lemma goPrimary_calls_le (script : Nat → ApiResponse) :
    ∀ fuel attempt, (goPrimary script fuel attempt).outboundCalls ≤ fuel := by
  intro fuel
  induction fuel with
  | zero => intro attempt; simp [goPrimary]
  | succ n ih =>
    intro attempt
    cases h : script attempt with
    | ok errcode errmsg =>
      by_cases hc : errcode ≠ 0
      · by_cases ha : attempt < maxRetries
        · simpa [goPrimary, h, hc, ha] using Nat.succ_le_succ (ih (attempt + 1))
        · simp [goPrimary, h, hc, ha]
      · simp [goPrimary, h, hc]
    | httpError status errmsg =>
      by_cases hs : status = 401
      · simpa [goPrimary, h, hs] using Nat.succ_le_succ (ih (attempt + 1))
      · simp [goPrimary, h, hs]
    | networkError => simp [goPrimary, h]

lemma goPart3_calls_le (script : Nat → ApiResponse) :
    ∀ fuel attempt, (goPart3 script fuel attempt).outboundCalls ≤ fuel := by
  intro fuel
  induction fuel with
  | zero => intro attempt; simp [goPart3]
  | succ n ih =>
    intro attempt
    cases h : script attempt with
    | ok errcode errmsg =>
      by_cases hc : errcode ≠ 0 <;> simp [goPart3, h, hc]
    | httpError status errmsg =>
      by_cases hs : status = 401
      · simpa [goPart3, h, hs] using Nat.succ_le_succ (ih (attempt + 1))
      · by_cases hm : errmsg = busyMsg
        · by_cases ha : attempt < maxRetries
          · simpa [goPart3, h, hs, hm, ha] using Nat.succ_le_succ (ih (attempt + 1))
          · simp [goPart3, h, hs, hm, ha]
        · simp [goPart3, h, hs, hm]
    | networkError => simp [goPart3, h]

lemma primary_all_app_err (codes : Nat → Nat) (msgs : Nat → String)
    (h : ∀ i, codes i ≠ 0) :
    runPrimary (fun i => .ok (codes i) (msgs i)) =
      ⟨.requestFailed, [1000, 2000, 4000], 0, 4, 4⟩ := by
  simp [runPrimary, goPrimary, h 0, h 1, h 2, h 3, maxRetries]

lemma part3_busy_all (st : Nat) (h : st ≠ 401) :
    runPart3 (fun _ => .httpError st busyMsg) =
      ⟨.requestFailed, [1000, 2000, 4000], 0, 4, 4⟩ := by
  simp [runPart3, goPart3, h, maxRetries]

lemma qStep_inv {s s2 : QState} {e : QEvent} (hinv : QInv s)
    (hstep : qStep s e = some s2) : QInv s2 := by
  obtain ⟨h1, h2⟩ := hinv
  cases e with
  | enqueue r =>
    simp only [qStep, Option.some.injEq] at hstep
    subst hstep
    refine ⟨?_, by simp [h2]⟩
    cases hw : s.worker <;> simp_all
  | next =>
    simp only [qStep] at hstep
    cases hw : s.worker with
    | looping =>
      rw [hw] at hstep
      cases hq : s.queue with
      | nil => rw [hq] at hstep; exact absurd hstep (by simp)
      | cons r rest =>
        rw [hq] at hstep
        simp only [Option.some.injEq] at hstep
        subst hstep
        rw [hw] at h1
        rw [hq] at h2
        exact ⟨by simp [h1], by simp [h2]⟩
    | idle => rw [hw] at hstep; exact absurd hstep (by simp)
    | awaiting r => rw [hw] at hstep; exact absurd hstep (by simp)
  | complete =>
    simp only [qStep] at hstep
    cases hw : s.worker with
    | awaiting r =>
      rw [hw] at hstep
      simp only [Option.some.injEq] at hstep
      subst hstep
      rw [hw] at h1
      exact ⟨by simp [h1], h2⟩
    | idle => rw [hw] at hstep; exact absurd hstep (by simp)
    | looping => rw [hw] at hstep; exact absurd hstep (by simp)
  | stop =>
    simp only [qStep] at hstep
    cases hw : s.worker with
    | looping =>
      rw [hw] at hstep
      cases hq : s.queue with
      | nil =>
        rw [hq] at hstep
        simp only [Option.some.injEq] at hstep
        subst hstep
        rw [hw] at h1
        exact ⟨by simp [h1], by simpa [hq] using h2⟩
      | cons r rest => rw [hq] at hstep; exact absurd hstep (by simp)
    | idle => rw [hw] at hstep; exact absurd hstep (by simp)
    | awaiting r => rw [hw] at hstep; exact absurd hstep (by simp)

lemma qRun_inv : ∀ (evs : List QEvent) (s s2 : QState), QInv s →
    qRun s evs = some s2 → QInv s2 := by
  intro evs
  induction evs with
  | nil => intro s s2 h hr; simp only [qRun, Option.some.injEq] at hr; exact hr ▸ h
  | cons e rest ih =>
    intro s s2 h hr
    simp only [qRun] at hr
    cases hstep : qStep s e with
    | none => rw [hstep] at hr; exact absurd hr (by simp)
    | some s1 =>
      rw [hstep] at hr
      exact ih s1 s2 (qStep_inv h hstep) hr

lemma qReachable_inv {s : QState} (h : QReachable s) : QInv s := by
  obtain ⟨evs, hr⟩ := h
  exact qRun_inv evs qInit s ⟨by simp [qInit], by simp [qInit]⟩ hr

lemma countDone_cons (x : RPhase) (xs : List RPhase) :
    countDone (x :: xs) = (if isDoneB x then 1 else 0) + countDone xs := by
  cases hx : isDoneB x <;> simp [countDone, List.filter_cons, hx, Nat.add_comm]

lemma countDone_set : ∀ (l : List RPhase) (i : Nat) (p v : RPhase),
    l.get? i = some p → isDoneB p = isDoneB v →
    countDone (l.set i v) = countDone l := by
  intro l
  induction l with
  | nil => intro i p v h _; simp at h
  | cons x xs ih =>
    intro i p v h hv
    cases i with
    | zero =>
      simp only [List.get?] at h
      injection h with h
      subst h
      simp [List.set, countDone_cons, hv]
    | succ j =>
      simp only [List.get?] at h
      simp [List.set, countDone_cons, ih j p v h hv]

lemma countDone_set_done : ∀ (l : List RPhase) (i : Nat) (p v : RPhase),
    l.get? i = some p → isDoneB p = false → isDoneB v = true →
    countDone (l.set i v) = countDone l + 1 := by
  intro l
  induction l with
  | nil => intro i p v h _ _; simp at h
  | cons x xs ih =>
    intro i p v h hp hv
    cases i with
    | zero =>
      simp only [List.get?] at h
      injection h with h
      subst h
      simp [List.set, countDone_cons, hp, hv, Nat.add_comm, Nat.add_assoc]
    | succ j =>
      simp only [List.get?] at h
      simp [List.set, countDone_cons, ih j p v h hp hv, Nat.add_assoc]

lemma countDone_all_done : ∀ (l : List RPhase),
    (∀ i p, l.get? i = some p → isDoneB p = true) → countDone l = l.length := by
  intro l
  induction l with
  | nil => intro _; simp [countDone]
  | cons x xs ih =>
    intro h
    have hx : isDoneB x = true := h 0 x rfl
    have hxs : countDone xs = xs.length := ih fun i p hp => h (i + 1) p hp
    simp [countDone_cons, hx, hxs, Nat.add_comm]

lemma rStep_inv {n : Nat} {s s2 : RState} {e : REvent} (hinv : RInv n s)
    (hstep : rStep s e = some s2) : RInv n s2 := by
  obtain ⟨hmux, hcount, hlen⟩ := hinv
  cases e with
  | acquire i =>
    simp only [rStep] at hstep
    cases hm : s.mutexHeld with
    | some j => rw [hm] at hstep; exact absurd hstep (by simp)
    | none =>
      rw [hm] at hstep
      cases hp : s.phases.get? i with
      | none => rw [hp] at hstep; exact absurd hstep (by simp)
      | some ph =>
        rw [hp] at hstep
        cases ph with
        | pending =>
          simp only [Option.some.injEq] at hstep
          subst hstep
          refine ⟨?_, ?_, by simp [hlen]⟩
          · intro j hj
            by_cases hij : i = j
            · simp [hij]
            · rw [List.get?_set_ne _ _ hij] at hj
              exact absurd (hmux j hj) (by simp [hm])
          · rw [hcount]
            exact (countDone_set s.phases i .pending .refreshing hp rfl).symm
        | refreshing => exact absurd hstep (by simp)
        | done v => exact absurd hstep (by simp)
  | refreshDone i =>
    simp only [rStep] at hstep
    cases hp : s.phases.get? i with
    | none => rw [hp] at hstep; exact absurd hstep (by simp)
    | some ph =>
      rw [hp] at hstep
      cases ph with
      | pending => exact absurd hstep (by simp)
      | done v => exact absurd hstep (by simp)
      | refreshing =>
        by_cases hm : s.mutexHeld = some i
        · rw [if_pos hm] at hstep
          simp only [Option.some.injEq] at hstep
          subst hstep
          refine ⟨?_, ?_, by simp [hlen]⟩
          · intro j hj
            by_cases hij : i = j
            · subst hij; rw [List.get?_set_eq, hp] at hj; simp at hj
            · rw [List.get?_set_ne _ _ hij] at hj
              have := hmux j hj
              rw [hm] at this
              injection this with this
              exact absurd this hij
          · rw [hcount]
            exact (countDone_set_done s.phases i .refreshing
              (.done (s.tokenVersion + 1)) hp rfl rfl).symm
        · rw [if_neg hm] at hstep; exact absurd hstep (by simp)

lemma rRun_inv {n : Nat} : ∀ (evs : List REvent) (s s2 : RState), RInv n s →
    rRun s evs = some s2 → RInv n s2 := by
  intro evs
  induction evs with
  | nil => intro s s2 h hr; simp only [rRun, Option.some.injEq] at hr; exact hr ▸ h
  | cons e rest ih =>
    intro s s2 h hr
    simp only [rRun] at hr
    cases hstep : rStep s e with
    | none => rw [hstep] at hr; exact absurd hr (by simp)
    | some s1 =>
      rw [hstep] at hr
      exact ih s1 s2 (rStep_inv h hstep) hr

lemma rInit_inv (n : Nat) : RInv n (rInit n) := by
  refine ⟨?_, ?_, by simp [rInit]⟩
  · intro i hi
    simp only [rInit] at hi
    rcases Nat.lt_or_ge i n with hlt | hge
    · rw [List.get?_eq_get (by simpa using hlt)] at hi
      simp [List.get_replicate] at hi
    · rw [List.get?_eq_none.mpr (by simpa using hge)] at hi
      exact absurd hi (by simp)
  · simp only [rInit]
    induction n with
    | zero => simp [countDone]
    | succ m ih => simp [List.replicate_succ, countDone_cons, isDoneB, ← ih]

lemma rReachable_inv {n : Nat} {s : RState} (h : RReachable n s) : RInv n s := by
  obtain ⟨evs, hr⟩ := h
  exact rRun_inv evs (rInit n) s (rInit_inv n) hr

lemma case3Go_calls : ∀ (subs : List (List RawTlv)) (cloud : Cloud),
    (case3Go cloud subs).snd.fst = addOnlyCalls subs := by
  intro subs
  induction subs with
  | nil => intro cloud; rfl
  | cons sub rest ih =>
    intro cloud
    cases sub with
    | nil => simp [case3Go, addOnlyCalls, ih]
    | cons t ts => simp [case3Go, addOnlyCalls, ih]

lemma addOnlyCalls_no_change : ∀ (subs : List (List RawTlv)),
    (addOnlyCalls subs).filter isChangeB = [] := by
  intro subs
  induction subs with
  | nil => rfl
  | cons sub rest ih =>
    cases sub with
    | nil => simpa [addOnlyCalls] using ih
    | cons t ts => simp [addOnlyCalls, List.filter_cons, isChangeB, ih]

lemma resolveRead_unresolved {pcs : List Passcode} {f : SubFields}
    {r : Option (List Nat)} (h : unresolvedAt pcs r) : resolveRead pcs f r = f := by
  rcases h with h | ⟨v, hv, hnan | ⟨idx, hidx, hn⟩⟩
  · subst h; rfl
  · subst hv
    simp [resolveRead, hnan]
  · subst hv
    rw [List.get?_eq_getElem?] at hn
    simp [resolveRead, hidx, hn]

lemma case2Records_get_resolved {pcs : List Passcode} :
    ∀ (reqs : List (Option (List Nat))) (f : SubFields) (i : Nat) (v : List Nat)
      (idx : Nat) (pc : Passcode), reqs.get? i = some (some v) →
      parseIntHex v = some idx → pcs.get? idx = some pc →
      (case2Records pcs f reqs).get? i = some (recordFor pc) := by
  intro reqs
  induction reqs with
  | nil => intro f i v idx pc h _ _; simp at h
  | cons r rest ih =>
    intro f i v idx pc h hidx hpc
    cases i with
    | zero =>
      simp only [List.get?] at h
      injection h with h
      subst h
      rw [List.get?_eq_getElem?] at hpc
      simp [case2Records, resolveRead, hidx, hpc]
    | succ j =>
      simp only [List.get?] at h
      simpa [case2Records] using ih (resolveRead pcs f r) j v idx pc h hidx hpc

lemma case2Records_get_stale {pcs : List Passcode} :
    ∀ (i : Nat) (reqs : List (Option (List Nat))) (f : SubFields)
      (r : Option (List Nat)), reqs.get? (i + 1) = some r → unresolvedAt pcs r →
      (case2Records pcs f reqs).get? (i + 1) = (case2Records pcs f reqs).get? i := by
  intro i
  induction i with
  | zero =>
    intro reqs f r h hu
    match reqs, h with
    | r0 :: r1 :: rest, h =>
      simp only [List.get?] at h
      injection h with h
      subst h
      simp [case2Records, resolveRead_unresolved hu]
  | succ j ih =>
    intro reqs f r h hu
    match reqs, h with
    | r0 :: rest, h =>
      simp only [List.get?] at h
      simpa [case2Records] using ih rest (resolveRead pcs f r0) r h hu

/-! ## Claims -/

/-- C1 counterexample: in the primary client, whose
`makeAuthenticatedRequest` issues its axios call directly without
touching the declared-but-unused request queue, the interleaving in which
two concurrent callers both start their calls before either completes is
valid and reaches a state with two outbound calls in flight — refuting
that at most one outbound call is in flight in every interleaving. -/
theorem c1_counterexample :
    dRun (dInit 2) [DEvent.start 0, DEvent.start 1] =
      some ⟨[Phase.calling, Phase.calling], [0, 1]⟩ ∧
    ¬(DState.inFlight ⟨[Phase.calling, Phase.calling], [0, 1]⟩).length ≤ 1 := by
  decide

/-- C1 amended: in the parallel client implementation, every state
reachable under any interleaving has at most one outbound call in flight,
and calls are started in exact enqueue order (the enqueue history is the
started history followed by the pending queue); the primary client issues
calls directly and does not enjoy this property. -/
theorem c1_amended (s : QState) (h : QReachable s) :
    s.inFlight.length ≤ 1 ∧ s.enqueued = s.started ++ s.queue := by
  obtain ⟨h1, h2⟩ := qReachable_inv h
  refine ⟨?_, h2⟩
  cases hw : s.worker with
  | awaiting r => rw [hw] at h1; simp [h1]
  | idle => rw [hw] at h1; simp [h1]
  | looping => rw [hw] at h1; simp [h1]

/-- C1 witness: the queued-client state reached by enqueueing request 5
and letting the worker start it is reachable and satisfies the
invariant. -/
theorem c1_witness :
    QReachable ⟨[], Worker.awaiting 5, [5], [5], [5]⟩ ∧
    (QState.inFlight ⟨[], Worker.awaiting 5, [5], [5], [5]⟩).length ≤ 1 := by
  have h : QReachable ⟨[], Worker.awaiting 5, [5], [5], [5]⟩ :=
    ⟨[QEvent.enqueue 5, QEvent.next], by decide⟩
  exact ⟨h, (c1_amended _ h).1⟩

/-- C2 counterexample: with two concurrent callers of the mutex-guarded
`refreshTokenIfNeeded`, the interleaving in which the second caller
acquires the mutex after the first finishes performs TWO refresh calls —
not the single collapsed refresh the claim requires — and the two callers
observe different token pairs (versions 1 and 2). -/
theorem c2_counterexample :
    rRun (rInit 2)
        [REvent.acquire 0, REvent.refreshDone 0, REvent.acquire 1, REvent.refreshDone 1] =
      some ⟨[RPhase.done 1, RPhase.done 2], none, 2, 2⟩ ∧
    (2 : Nat) ≠ 1 ∧ RPhase.done 1 ≠ RPhase.done 2 := by
  decide

/-- C2 amended: the mutex serializes refreshes — in every reachable state
at most one caller is inside the refresh critical section — but it does
not collapse concurrent callers: in every execution in which all `n`
callers complete, exactly `n` refresh calls to the cloud service have
been made (each caller performs its own refresh once it acquires the
lock). -/
theorem c2_amended (n : Nat) (s : RState) (h : RReachable n s) :
    (∀ i j, s.phases.get? i = some .refreshing →
      s.phases.get? j = some .refreshing → i = j) ∧
    ((∀ i p, s.phases.get? i = some p → isDoneB p = true) → s.refreshCalls = n) := by
  obtain ⟨hmux, hcount, hlen⟩ := rReachable_inv h
  constructor
  · intro i j hi hj
    have h1 := hmux i hi
    have h2 := hmux j hj
    rw [h1] at h2
    exact Option.some.inj h2
  · intro hall
    rw [hcount, ← hlen]
    exact countDone_all_done s.phases hall

/-- C2 witness: the completed two-caller execution is reachable and shows
`refreshCalls = 2`. -/
theorem c2_witness :
    RReachable 2 ⟨[RPhase.done 1, RPhase.done 2], none, 2, 2⟩ ∧
    RState.refreshCalls ⟨[RPhase.done 1, RPhase.done 2], none, 2, 2⟩ = 2 := by
  have h : RReachable 2 ⟨[RPhase.done 1, RPhase.done 2], none, 2, 2⟩ :=
    ⟨[REvent.acquire 0, REvent.refreshDone 0, REvent.acquire 1, REvent.refreshDone 1],
      by decide⟩
  refine ⟨h, (c2_amended 2 _ h).2 ?_⟩
  intro i p hp
  cases i with
  | zero => injection hp with hp; subst hp; rfl
  | succ j =>
    cases j with
    | zero => injection hp with hp; subst hp; rfl
    | succ m => exact absurd hp (by simp [List.get?])

/-- C3 counterexample: in the primary client, a request answered by one
401 and then transient errors makes only three transient attempts (with
backoffs 2s and 4s) before failing — the 401-driven refresh retry
consumed one unit of the shared budget, so the request does NOT retain
its full four attempts against transient errors. -/
theorem c3_counterexample :
    runPrimary (fun i => if i = 0 then .httpError 401 "" else .ok 1 busyMsg) =
      ⟨.requestFailed, [2000, 4000], 1, 3, 4⟩ ∧ (3 : Nat) ≠ 4 := by
  decide

/-- C3 amended: in both clients the 401-driven refresh retry consumes the
same attempt budget as transient retries: with the first `k ≤ 4`
responses being 401 and the rest transient errors, the request performs
`k` refreshes, only `4 - k` transient attempts, and exactly 4 outbound
calls in total. -/
theorem c3_amended (k : Nat) (hk : k ≤ 4) :
    ((runPrimary (mix401Primary k)).refreshCalls = k ∧
     (runPrimary (mix401Primary k)).busyAttempts = 4 - k ∧
     (runPrimary (mix401Primary k)).outboundCalls = 4) ∧
    ((runPart3 (mix401Part3 k)).refreshCalls = k ∧
     (runPart3 (mix401Part3 k)).busyAttempts = 4 - k ∧
     (runPart3 (mix401Part3 k)).outboundCalls = 4) := by
  interval_cases k <;> exact ⟨by decide, by decide⟩

/-- C3 witness: after a single 401 refresh the primary client has only
three transient attempts left. -/
theorem c3_witness :
    (runPrimary (mix401Primary 1)).refreshCalls = 1 ∧
    (runPrimary (mix401Primary 1)).busyAttempts = 3 := by
  have h := c3_amended 1 (by decide)
  exact ⟨h.1.1, by simpa using h.1.2.1⟩

/-- C4 counterexample: in the primary client, a request whose responses
all carry the non-transient application error code 5 is retried three
times with exponential backoff (four outbound calls, sleeps 1s, 2s, 4s)
before failing — it does not fail immediately and retries ARE made,
refuting the claim. -/
theorem c4_counterexample :
    runPrimary (fun _ => .ok 5 "Unknown error") =
      ⟨.requestFailed, [1000, 2000, 4000], 0, 4, 4⟩ ∧
    ([1000, 2000, 4000] : List Nat) ≠ [] := by
  decide

/-- C4 amended: the parallel client fails a request immediately on any
non-zero application error code — a single outbound call, no backoff —
while the primary client treats every non-zero application error code as
retryable, making four outbound calls with backoff delays 1s, 2s, 4s
before failing with `RequestFailed`; and in both clients a successfully
decoded listing response whose `list` field is missing or not an array
fails the listing call immediately with the plain invalid-format error —
after the single successful outbound call, with no backoff delay and no
retry. -/
theorem c4_amended :
    (∀ (script : Nat → ApiResponse) (c : Nat) (m : String),
      script 0 = .ok c m → c ≠ 0 →
      runPart3 script = ⟨.requestFailed, [], 0, 0, 1⟩) ∧
    (∀ (codes : Nat → Nat) (msgs : Nat → String), (∀ i, codes i ≠ 0) →
      runPrimary (fun i => .ok (codes i) (msgs i)) =
        ⟨.requestFailed, [1000, 2000, 4000], 0, 4, 4⟩) ∧
    (∀ (script : Nat → ApiResponse) (m : String), script 0 = .ok 0 m →
      getLocksPrimary script .notArray =
        (.invalidFormat, ⟨.success, [], 0, 0, 1⟩)) ∧
    (∀ (script : Nat → ApiResponse) (m : String), script 0 = .ok 0 m →
      getLocksPart3 script .notArray =
        (.invalidFormat, ⟨.success, [], 0, 0, 1⟩)) := by
  refine ⟨?_, ?_, ?_, ?_⟩
  · intro script c m h hc
    simp [runPart3, goPart3, h, hc]
  · intro codes msgs h
    exact primary_all_app_err codes msgs h
  · intro script m h
    simp [getLocksPrimary, runPrimary, goPrimary, h]
  · intro script m h
    simp [getLocksPart3, runPart3, goPart3, h]

/-- C4 witness: concrete instantiations of the conjuncts: the parallel
client rejects error code 5 at once; the primary retries it; and both
clients fail a malformed list shape at once after one successful call. -/
theorem c4_witness :
    runPart3 (fun _ => ApiResponse.ok 5 "err") = ⟨.requestFailed, [], 0, 0, 1⟩ ∧
    runPrimary (fun _ => ApiResponse.ok 5 "err") =
      ⟨.requestFailed, [1000, 2000, 4000], 0, 4, 4⟩ ∧
    getLocksPrimary (fun _ => ApiResponse.ok 0 "none") ListField.notArray =
      (.invalidFormat, ⟨.success, [], 0, 0, 1⟩) ∧
    getLocksPart3 (fun _ => ApiResponse.ok 0 "none") ListField.notArray =
      (.invalidFormat, ⟨.success, [], 0, 0, 1⟩) := by
  exact ⟨c4_amended.1 _ 5 "err" rfl (by decide),
    c4_amended.2.1 (fun _ => 5) (fun _ => "err") (fun _ => by simp),
    c4_amended.2.2.1 _ "none" rfl,
    c4_amended.2.2.2 _ "none" rfl⟩

/-- C5: in both clients a request that repeatedly receives the transient
"busy" signal (non-zero application error code for the primary client; an
HTTP error body carrying the busy message for the parallel client) is
retried with exponential backoff — observed delays exactly 1s, 2s, 4s
between attempts 1→2, 2→3, 3→4 — makes exactly 4 attempts, and then
fails terminally; moreover no request ever makes more than 4 outbound
calls. -/
theorem c5_theorem :
    (∀ (codes : Nat → Nat) (msgs : Nat → String), (∀ i, codes i ≠ 0) →
      runPrimary (fun i => .ok (codes i) (msgs i)) =
        ⟨.requestFailed, [1000, 2000, 4000], 0, 4, 4⟩) ∧
    (∀ st : Nat, st ≠ 401 →
      runPart3 (fun _ => .httpError st busyMsg) =
        ⟨.requestFailed, [1000, 2000, 4000], 0, 4, 4⟩) ∧
    (∀ script, (runPrimary script).outboundCalls ≤ 4) ∧
    (∀ script, (runPart3 script).outboundCalls ≤ 4) := by
  refine ⟨primary_all_app_err, part3_busy_all, ?_, ?_⟩
  · intro script
    exact goPrimary_calls_le script 4 0
  · intro script
    exact goPart3_calls_le script 4 0

/-- C5 witness: the constant busy script realizes the 1s/2s/4s backoff
schedule and 4-attempt cap in both clients. -/
theorem c5_witness :
    runPrimary (fun _ => ApiResponse.ok 1 busyMsg) =
      ⟨.requestFailed, [1000, 2000, 4000], 0, 4, 4⟩ ∧
    runPart3 (fun _ => ApiResponse.httpError 500 busyMsg) =
      ⟨.requestFailed, [1000, 2000, 4000], 0, 4, 4⟩ ∧
    (runPrimary (fun _ => ApiResponse.networkError)).outboundCalls ≤ 4 := by
  exact ⟨c5_theorem.1 (fun _ => 1) (fun _ => busyMsg) (fun _ => by simp),
    c5_theorem.2.1 500 (by decide), c5_theorem.2.2.1 _⟩

/-- C6 counterexample: an opcode-3 sub-command whose first sub-TLV has
tag 1 (the identifier sub-tag) naming slot 0, which exists in the
snapshot, is nevertheless processed as an add: the handler issues
`addPasscode` with that first sub-TLV's value and a refetch, and no
`changePasscode` call occurs. -/
theorem c6_counterexample :
    (handleCase3 ⟨[(7, "1234")], 8⟩
        [[⟨1, [0]⟩, ⟨2, strBytes "4321"⟩]]).snd.fst =
      [GatewayCall.add (bytesToStr [0]), GatewayCall.fetch] ∧
    ((handleCase3 ⟨[(7, "1234")], 8⟩
        [[⟨1, [0]⟩, ⟨2, strBytes "4321"⟩]]).snd.fst).filter isChangeB = [] ∧
    (cloudGetPasscodes ⟨[(7, "1234")], 8⟩).get? (bytesToNat [0]) =
      some ⟨"7", 0, "1234"⟩ := by
  refine ⟨by decide, by decide, by decide⟩

/-- C6 amended: the opcode-3 handler treats every non-empty sub-command
as an add — it calls `addPasscode` with the value of the FIRST sub-TLV
(no sub-tag is inspected) followed by a snapshot refetch — and it never
issues a `changePasscode` call; `changePasscode` exists only in the
parallel API client and is never invoked by the handler. -/
theorem c6_amended (cloud : Cloud) (subs : List (List RawTlv)) :
    (handleCase3 cloud subs).snd.fst = addOnlyCalls subs ∧
    ((handleCase3 cloud subs).snd.fst).filter isChangeB = [] := by
  have h : (handleCase3 cloud subs).snd.fst = addOnlyCalls subs := by
    simp [handleCase3, case3Go_calls subs cloud]
  exact ⟨h, by rw [h]; exact addOnlyCalls_no_change subs⟩

/-- C7 counterexample: with snapshot `[passcode at slot 0]`, a Read
command requesting slots 0 and 5 emits for the out-of-range slot 5 a
sub-record identical to the previous one (the stale values of the
handler's mutable `identifier`/`accessCode` variables) rather than an
empty sub-record. -/
theorem c7_counterexample :
    case2Records [⟨"9", 0, "1234"⟩] emptySubFields [some [0], some [5]] =
      [recordFor ⟨"9", 0, "1234"⟩, recordFor ⟨"9", 0, "1234"⟩] ∧
    recordFor ⟨"9", 0, "1234"⟩ ≠ emptySubFields ∧
    parseIntHex [5] = some 5 ∧
    ([⟨"9", 0, "1234"⟩] : List Passcode).length ≤ 5 := by
  refine ⟨by decide, by decide, by decide, by decide⟩

/-- C7 amended: the Read (opcode 2) handler never errors; with an empty
snapshot the response is just the opcode echo (no sub-records at all); a
request whose `parseInt(hex, 16)` slot index resolves in the snapshot
yields the passcode at that position; a request that does not resolve
(missing sub-field, empty identifier value whose `parseInt` is `NaN`, or
index out of range) repeats the previously emitted sub-record's fields —
which are empty only when no earlier request of the same command
resolved. -/
theorem c7_amended :
    (∀ reqs, handleCase2 [] reqs = [1, 1, 2]) ∧
    (∀ (pcs : List Passcode) (f : SubFields) reqs (i : Nat) (v : List Nat)
      (idx : Nat) (pc : Passcode), reqs.get? i = some (some v) →
      parseIntHex v = some idx → pcs.get? idx = some pc →
      (case2Records pcs f reqs).get? i = some (recordFor pc)) ∧
    (∀ (pcs : List Passcode) (f : SubFields) reqs (i : Nat)
      (r : Option (List Nat)), reqs.get? (i + 1) = some r → unresolvedAt pcs r →
      (case2Records pcs f reqs).get? (i + 1) = (case2Records pcs f reqs).get? i) ∧
    (∀ (pcs : List Passcode) reqs (r : Option (List Nat)),
      reqs.get? 0 = some r → unresolvedAt pcs r →
      (case2Records pcs emptySubFields reqs).get? 0 = some emptySubFields) := by
  refine ⟨?_, ?_, ?_, ?_⟩
  · intro reqs
    simp [handleCase2]
  · intro pcs f reqs i v idx pc h hidx hpc
    exact case2Records_get_resolved reqs f i v idx pc h hidx hpc
  · intro pcs f reqs i r h hu
    exact case2Records_get_stale i reqs f r h hu
  · intro pcs reqs r h hu
    match reqs, h with
    | r0 :: rest, h =>
      simp only [List.get?] at h
      injection h with h
      subst h
      simp [case2Records, resolveRead_unresolved hu]

/-- C7 witness: a first request for out-of-range slot 9 against a
one-entry snapshot yields the empty sub-record; so does a first request
whose identifier value is empty (the `parseInt('', 16) = NaN` case); an
in-range request yields the snapshot entry. -/
theorem c7_witness :
    (case2Records [⟨"9", 0, "1234"⟩] emptySubFields [some [9]]).get? 0 =
      some emptySubFields ∧
    (case2Records [⟨"9", 0, "1234"⟩] emptySubFields [some []]).get? 0 =
      some emptySubFields ∧
    (case2Records [⟨"9", 0, "1234"⟩] emptySubFields [some [0]]).get? 0 =
      some (recordFor ⟨"9", 0, "1234"⟩) := by
  refine ⟨?_, ?_, ?_⟩
  · exact c7_amended.2.2.2 [⟨"9", 0, "1234"⟩] [some [9]] (some [9]) rfl
      (Or.inr ⟨[9], rfl, Or.inr ⟨9, rfl, by decide⟩⟩)
  · exact c7_amended.2.2.2 [⟨"9", 0, "1234"⟩] [some []] (some []) rfl
      (Or.inr ⟨[], rfl, Or.inl rfl⟩)
  · exact c7_amended.2.1 [⟨"9", 0, "1234"⟩] emptySubFields [some [0]] 0 [0] 0
      ⟨"9", 0, "1234"⟩ rfl rfl (by decide)

/-- C8 counterexample: on a decode failure the control-point handler does
return the benign empty response, but its shared catch block also sets
`lock.offline = true` and calls `stopPolling()` — for an online, polling
device the decode failure is NOT absorbed without the Offline/polling
transition the claim reserves for network faults. -/
theorem c8_counterexample :
    handleACCP false ⟨[], 0⟩ [] (Except.error ()) ⟨false, true, false, false⟩ =
      ⟨[], ⟨[], 0⟩, [], ⟨true, false, false, false⟩⟩ ∧
    HandlerState.lockOffline ⟨true, false, false, false⟩ ≠ false ∧
    HandlerState.polling ⟨true, false, false, false⟩ ≠ true := by
  refine ⟨by decide, by decide, by decide⟩

/-- C8 amended: on malformed input the handler raises nothing across the
accessory boundary and returns the benign empty response, but the decode
failure is handled by the same catch block as network faults: the device
is marked Offline and its polling is stopped (and the busy/updating flags
are cleared by the finally block). -/
theorem c8_amended (shuttingDown : Bool) (cloud : Cloud) (pcs : List Passcode)
    (st : HandlerState) (hoff : st.lockOffline = false) (hsd : shuttingDown = false) :
    handleACCP shuttingDown cloud pcs (Except.error ()) st =
      ⟨[], cloud, pcs, ⟨true, false, false, false⟩⟩ := by
  subst hsd
  simp [handleACCP, hoff]

/-- C8 witness: concrete online polling device, decode failure. -/
theorem c8_witness :
    handleACCP false ⟨[(3, "2468")], 4⟩ [⟨"3", 0, "2468"⟩] (Except.error ())
        ⟨false, true, false, false⟩ =
      ⟨[], ⟨[(3, "2468")], 4⟩, [⟨"3", 0, "2468"⟩], ⟨true, false, false, false⟩⟩ := by
  exact c8_amended false ⟨[(3, "2468")], 4⟩ [⟨"3", 0, "2468"⟩]
    ⟨false, true, false, false⟩ rfl rfl

/-- C9: evaluation at the failing input.  An accessory with
`context.id = "L1"` whose device is registered under `"L1"` in
`homekitDevicesById` is absent from a sweep for longer than the offline
interval (100 > 7): the periodic-discovery handling deletes it from the
configured-accessory map, but — because `handleOfflineAccessory` looks up
`homekitDevicesById` under the never-assigned `context.deviceId` — the
in-memory device is left untouched: its lock is not marked offline, its
polling flag stays set, and its next poll tick still polls the cloud. -/
theorem c9_theorem :
    sweepAbsent ⟨[("U1", ⟨some "L1", 0, false, none⟩)], [("L1", ⟨false, true, 0⟩)]⟩
        "U1" 100 7 =
      ⟨[], [("L1", ⟨false, true, 0⟩)]⟩ ∧
    mapGet "L1" (PlatState.devices ⟨[], [("L1", ⟨false, true, 0⟩)]⟩) =
      some ⟨false, true, 0⟩ ∧
    pollTick false ⟨false, true, 0⟩ = (⟨false, true, 0⟩, true) ∧
    100 - (0 : Nat) > 7 := by
  refine ⟨by decide, by decide, by decide, by decide⟩

/-- C10 counterexample: for a server-reported state of 0 the primary
client's `getLockState` returns 1 while the parallel client's returns 0 —
the two implementations are not extensionally equal. -/
theorem c10_counterexample :
    getLockStatePrimary 0 = 1 ∧ getLockStatePart3 0 = 0 ∧ (1 : Nat) ≠ 0 := by
  decide

/-- C10 amended: the primary client's `getLockState` swaps 0 and 1 and
leaves every other server value unchanged (hence it is an involution),
while the parallel client's `getLockState` returns every server value
unchanged; the two implementations therefore differ exactly on the
inputs 0 and 1. -/
theorem c10_amended :
    (getLockStatePrimary 0 = 1 ∧ getLockStatePrimary 1 = 0) ∧
    (∀ s, s ≠ 0 → s ≠ 1 → getLockStatePrimary s = s) ∧
    (∀ s, getLockStatePrimary (getLockStatePrimary s) = s) ∧
    (∀ s, getLockStatePart3 s = s) := by
  refine ⟨by decide, ?_, ?_, fun s => rfl⟩
  · intro s h0 h1
    simp [getLockStatePrimary, h0, h1]
  · intro s
    by_cases h0 : s = 0
    · simp [getLockStatePrimary, h0]
    · by_cases h1 : s = 1
      · simp [getLockStatePrimary, h0, h1]
      · simp [getLockStatePrimary, h0, h1]

/-- C10 witness: the unchanged-value clause at server state 5 and the
involution at 0. -/
theorem c10_witness :
    getLockStatePrimary 5 = 5 ∧
    getLockStatePrimary (getLockStatePrimary 0) = 0 := by
  exact ⟨c10_amended.2.1 5 (by decide) (by decide), c10_amended.2.2.1 0⟩

end TTLock
